import Mathlib

/-!
Verification development for the infinite-llm-dialogue backend.

The JavaScript sources are shallowly embedded: JS numbers are modelled as
rationals (`ℚ`, exact for every value the claims exercise), fallible
functions return `Except`, JS `undefined`/absent object fields are
modelled with `Option`, and the JS remainder operator and array indexing
get explicit models (`jsMod`, `jsArrayGet`).  String-valued error
messages follow the source text.
-/

namespace InfiniteChat

instance {ε α : Type} [DecidableEq ε] [DecidableEq α] : DecidableEq (Except ε α) := fun a b =>
  match a, b with
  | .ok x, .ok y =>
    if h : x = y then .isTrue (by rw [h]) else .isFalse (by intro hc; cases hc; exact h rfl)
  | .error e, .error f =>
    if h : e = f then .isTrue (by rw [h]) else .isFalse (by intro hc; cases hc; exact h rfl)
  | .ok _, .error _ => .isFalse (by intro hc; cases hc)
  | .error _, .ok _ => .isFalse (by intro hc; cases hc)

/-- JS whitespace class (`\s` and `String.prototype.trim`), restricted to
the ASCII range that the modelled inputs use. -/
def jsWs (c : Char) : Bool :=
  c = ' ' || c = '\t' || c = '\n' || c = '\r' || c = '\x0b' || c = '\x0c'

/-- Model of `String.prototype.trim` on a character list. -/
def jsTrimChars (cs : List Char) : List Char :=
  ((cs.dropWhile jsWs).reverse.dropWhile jsWs).reverse

/-- The JS remainder operator `a % b` for `a ≥ 0`, `b > 0` (the only use
sites in the sources guard the operands this way; on that domain the JS
truncated remainder coincides with the floor-based one). -/
def jsMod (a b : ℚ) : ℚ := a - b * (⌊a / b⌋ : ℚ)

/-- JS array indexing `l[q]` with a numeric index: yields an element only
when the index is a non-negative integer inside the bounds, `undefined`
(here `none`) otherwise — in particular for fractional indices. -/
def jsArrayGet {α : Type} (l : List α) (q : ℚ) : Option α :=
  if h : q.den = 1 ∧ 0 ≤ q.num ∧ q.num.toNat < l.length then
    some (l.get ⟨q.num.toNat, h.2.2⟩)
  else
    none

/-- The `personality` sub-object of a participant (src/models/chatMetadata.js). -/
structure Personality where
  moods : List String
  phrase : String
deriving DecidableEq, Repr

/-- One AI persona definition (src/models/chatMetadata.js). -/
structure Participant where
  name : String
  provider : String
  personality : Personality
deriving DecidableEq, Repr

/-- One chat turn (src/models/chatMessage.js).  `email = none` models an
absent (`undefined`) field. -/
structure ChatMessage where
  id : String
  datetime : ℚ
  sender : String
  message : String
  isProcessed : Bool
  email : Option String
deriving DecidableEq, Repr

/-- The singleton configuration record (src/models/chatMetadata.js). -/
structure ChatMetadata where
  id : String
  datetime : ℚ
  llmParticipants : List Participant
  nextSpeakerIndex : ℚ
deriving DecidableEq, Repr

def validProviders : List String := ["google", "anthropic", "openai"]

def validSenders : List String := ["user", "gemini", "claude", "openai"]

/-- Embedding of `validateParticipant` (src/models/chatMetadata.js:11-36).  The
`typeof participant !== 'object'` guard is vacuous in the typed embedding;
the remaining checks are kept in source order. -/
def validateParticipant (p : Participant) : Except String Unit :=
  if ¬ validProviders.contains p.provider then
    .error "Participant provider must be one of: google, anthropic, openai"
  else if p.name = "" then
    .error "Participant name must be a non-empty string"
  else if p.personality.moods = [] then
    .error "Participant personality.moods must be a non-empty array"
  else if p.personality.phrase = "" then
    .error "Participant personality.phrase must be a non-empty string"
  else
    .ok ()

/-- Folds `validateParticipant` over the list the way the source's
`forEach` does, stopping at the first failing participant. -/
def validateParticipants : List Participant → Except String Unit
  | [] => .ok ()
  | p :: ps =>
    match validateParticipant p with
    | .error e => .error e
    | .ok () => validateParticipants ps

/-- Embedding of `validateChatMetadata` (src/models/chatMetadata.js:43-79).  The
`typeof metadata !== 'object'` and `typeof nextSpeakerIndex !== 'number'`
guards are vacuous in the typed embedding; the per-participant error is
propagated without the source's `Invalid participant at index i:` prefix
(no claim inspects that text); note the index checks accept any
non-negative rational below the participant count, integer or not. -/
def validateChatMetadata (md : ChatMetadata) : Except String Unit :=
  if md.id ≠ "chat" then
    .error "Metadata id must be \"chat\""
  else if md.datetime ≠ 0 then
    .error "Metadata datetime must be 0"
  else if md.llmParticipants = [] then
    .error "Metadata llmParticipants must be a non-empty array"
  else
    match validateParticipants md.llmParticipants with
    | .error e => .error e
    | .ok () =>
      if md.nextSpeakerIndex < 0 then
        .error "Metadata nextSpeakerIndex must be a non-negative number"
      else if (md.llmParticipants.length : ℚ) ≤ md.nextSpeakerIndex then
        .error "Metadata nextSpeakerIndex must be less than number of participants"
      else
        .ok ()

/-- Embedding of `validateChatMessage` (src/models/chatMessage.js:242-272).  The
`typeof` guards on `datetime`, `isProcessed` and `email` are vacuous in
the typed embedding. -/
def validateChatMessage (m : ChatMessage) : Except String Unit :=
  if m.id ≠ "chat" then
    .error "Message id must be \"chat\""
  else if ¬ 0 < m.datetime then
    .error "Message datetime must be a positive number"
  else if ¬ validSenders.contains m.sender then
    .error "Message sender must be one of: user, gemini, claude, openai"
  else if m.message = "" then
    .error "Message content must be a non-empty string"
  else
    .ok ()

/-!  Wire (DynamoDB-attribute) records.  A field's `none` models either an
absent attribute or an absent inner payload (`item.f` / `item.f.S`
missing collapse to one level; the source only distinguishes them in the
error text).  For string payloads the JS code also treats the empty
string as missing via truthiness, which stays visible in the embedding;
numeric payloads are wire strings `String(n)`, which are never empty, so
only presence matters for them. -/

/-- Wire form of a participant (`serializeParticipant` output shape,
src/models/chatMetadata.js:86-103, with the `M` nesting flattened). -/
structure WireParticipant where
  name : Option String
  provider : Option String
  moods : Option (List String)
  phrase : Option String
deriving DecidableEq, Repr

/-- Wire form of a ChatMessage (src/models/chatMessage.js:280-297). -/
structure WireMessage where
  id : Option String
  datetime : Option ℚ
  sender : Option String
  message : Option String
  isProcessed : Option Bool
  email : Option String
deriving DecidableEq, Repr

/-- Wire form of ChatMetadata (src/models/chatMetadata.js:155-166). -/
structure WireMetadata where
  id : Option String
  datetime : Option ℚ
  llmParticipants : Option (List WireParticipant)
  nextSpeakerIndex : Option ℚ
deriving DecidableEq, Repr

/-- Embedding of `serializeParticipant` (src/models/chatMetadata.js:86-103): validates,
then emits every field. -/
def serializeParticipant (p : Participant) : Except String WireParticipant :=
  match validateParticipant p with
  | .error e => .error e
  | .ok () =>
    .ok ⟨some p.name, some p.provider, some p.personality.moods, some p.personality.phrase⟩

/-- The wire image of a participant, as `serializeParticipant` emits it;
used to state round-trip lemmas. -/
def participantWire (p : Participant) : WireParticipant :=
  ⟨some p.name, some p.provider, some p.personality.moods, some p.personality.phrase⟩

/-- Embedding of `deserializeParticipant` (src/models/chatMetadata.js:110-147): the JS
truthiness checks reject absent *and* empty `name`/`provider`/`phrase`;
`moods.L` is an array and arrays are always truthy, so only its presence
is checked and its elements are copied unchecked. -/
def deserializeParticipant (w : WireParticipant) : Except String Participant :=
  match w.name with
  | none => .error "Participant missing required field: name"
  | some n =>
    if n = "" then .error "Participant missing required field: name"
    else
      match w.provider with
      | none => .error "Participant missing required field: provider"
      | some pr =>
        if pr = "" then .error "Participant missing required field: provider"
        else
          match w.moods with
          | none => .error "Participant personality missing required field: moods"
          | some ms =>
            match w.phrase with
            | none => .error "Participant personality missing required field: phrase"
            | some ph =>
              if ph = "" then .error "Participant personality missing required field: phrase"
              else .ok ⟨n, pr, ⟨ms, ph⟩⟩

/-- Embedding of `serializeChatMetadata` (src/models/chatMetadata.js:155-166):
validates first, then serializes each participant (whose own validation
cannot fail any more at that point). -/
def serializeChatMetadata (md : ChatMetadata) : Except String WireMetadata :=
  match validateChatMetadata md with
  | .error e => .error e
  | .ok () =>
    match md.llmParticipants.mapM serializeParticipant with
    | .error e => .error e
    | .ok parts => .ok ⟨some md.id, some md.datetime, some parts, some md.nextSpeakerIndex⟩

/-- Embedding of `deserializeChatMetadata` (src/models/chatMetadata.js:174-204):
structural presence checks, reconstruction, then a full
`validateChatMetadata` before returning. -/
def deserializeChatMetadata (w : WireMetadata) : Except String ChatMetadata :=
  match w.id with
  | none => .error "Item missing required field: id"
  | some i =>
    if i = "" then .error "Item missing required field: id"
    else
      match w.datetime with
      | none => .error "Item missing required field: datetime"
      | some dt =>
        match w.llmParticipants with
        | none => .error "Item missing required field: llmParticipants"
        | some wps =>
          match w.nextSpeakerIndex with
          | none => .error "Item missing required field: nextSpeakerIndex"
          | some idx =>
            match wps.mapM deserializeParticipant with
            | .error e => .error e
            | .ok parts =>
              match validateChatMetadata ⟨i, dt, parts, idx⟩ with
              | .error e => .error e
              | .ok () => .ok ⟨i, dt, parts, idx⟩

/-- Embedding of `serializeChatMessage` (src/models/chatMessage.js:280-297): validates
first; the `email` attribute is emitted exactly when the field is
defined (an empty-string email is still emitted). -/
def serializeChatMessage (m : ChatMessage) : Except String WireMessage :=
  match validateChatMessage m with
  | .error e => .error e
  | .ok () =>
    .ok ⟨some m.id, some m.datetime, some m.sender, some m.message, some m.isProcessed, m.email⟩

/-- Embedding of `deserializeChatMessage` (src/models/chatMessage.js:305-344):
structural presence checks only — unlike `deserializeChatMetadata` it
never runs `validateChatMessage` on the reconstructed entity.  The email
is copied only when present *and* non-empty (`item.email && item.email.S`). -/
def deserializeChatMessage (w : WireMessage) : Except String ChatMessage :=
  match w.id with
  | none => .error "Item missing required field: id"
  | some i =>
    if i = "" then .error "Item missing required field: id"
    else
      match w.datetime with
      | none => .error "Item missing required field: datetime"
      | some dt =>
        match w.sender with
        | none => .error "Item missing required field: sender"
        | some s =>
          if s = "" then .error "Item missing required field: sender"
          else
            match w.message with
            | none => .error "Item missing required field: message"
            | some msg =>
              if msg = "" then .error "Item missing required field: message"
              else
                match w.isProcessed with
                | none => .error "Item missing required field: isProcessed"
                | some b =>
                  let email : Option String :=
                    match w.email with
                    | some e => if e = "" then none else some e
                    | none => none
                  .ok ⟨i, dt, s, msg, b, email⟩

/-- Embedding of `createChatMessage` (src/models/chatMessage.js:368-383): builds the
record with `isProcessed := false` and `datetime := Date.now()` (passed
in as `now`), then validates. -/
def createChatMessage (sender content : String) (email : Option String) (now : ℚ) :
    Except String ChatMessage :=
  match validateChatMessage ⟨"chat", now, sender, content, false, email⟩ with
  | .error e => .error e
  | .ok () => .ok ⟨"chat", now, sender, content, false, email⟩

/-- Embedding of `getNextSpeaker` (src/unnamed/part_007:14-33): after the emptiness
and non-negativity guards it wraps the index with the JS `%` and indexes
the array — a fractional index therefore yields `undefined` (`none`). -/
def getNextSpeaker (md : ChatMetadata) : Except String (Option Participant) :=
  if md.llmParticipants = [] then
    .error "Metadata must contain a non-empty llmParticipants array"
  else if md.nextSpeakerIndex < 0 then
    .error "Metadata must contain a non-negative nextSpeakerIndex"
  else
    let participantCount : ℚ := md.llmParticipants.length
    let safeIndex := jsMod md.nextSpeakerIndex participantCount
    .ok (jsArrayGet md.llmParticipants safeIndex)

/-- Embedding of `incrementSpeakerIndex` (src/unnamed/part_007:43-54). -/
def incrementSpeakerIndex (currentIndex participantCount : ℚ) : Except String ℚ :=
  if currentIndex < 0 then
    .error "currentIndex must be a non-negative number"
  else if participantCount ≤ 0 then
    .error "participantCount must be a positive number"
  else
    .ok (jsMod (currentIndex + 1) participantCount)

/-- The round-robin step `idx ↦ (idx+1) % count` on naturals, used to
state the cycle-closure property of `incrementSpeakerIndex`. -/
def incStep (count idx : ℕ) : ℕ := (idx + 1) % count

/-- The result object of the rate-limit check.  The JS code only ever
constructs `{canSend}` or `{canSend, message}`; the `waitSeconds` field
is part of the modelled object shape so the spec's claim about it can be
stated, and it is `none` in every object the code builds. -/
structure RateLimitResult where
  canSend : Bool
  message : Option String
  waitSeconds : Option ℚ
deriving DecidableEq, Repr

/-- The denial text built at src/services/dynamoDbService.js:182-186. -/
def waitMessage (n : ℤ) : String :=
  "Please wait " ++ toString n ++ " seconds before sending another message."

/-- Embedding of `checkMessageRateLimit` (src/services/dynamoDbService.js:111-194),
production path: the store query is abstracted into `lastDatetime`, the
datetime of the most recent message by the sender (`none` when no prior
message exists); `now` is `Date.now()` in epoch milliseconds. -/
def checkMessageRateLimit (lastDatetime : Option ℚ) (now : ℚ) : RateLimitResult :=
  match lastDatetime with
  | none => ⟨true, none, none⟩
  | some lastTimestamp =>
    if (now - lastTimestamp) / 1000 < 60 then
      ⟨false, some (waitMessage ⌈60 - (now - lastTimestamp) / 1000⌉), none⟩
    else ⟨true, none, none⟩

/-- The DynamoDB `Item` literal built by `storeChatMessage`
(src/services/dynamoDbService.js:6-16): note it has no `isProcessed`
attribute, so that slot of the modelled record is `none`. -/
structure StoredItem where
  id : String
  message : String
  sender : String
  datetime : ℚ
  email : Option String
  isProcessed : Option Bool
deriving DecidableEq, Repr

/-- Embedding of the record `storeChatMessage` stores (src/services/dynamoDbService.js:6-16);
`now` is `new Date().getTime()`. -/
def storeChatMessageItem (message sender : String) (email : Option String) (now : ℚ) :
    StoredItem :=
  ⟨"chat", message, sender, now, email, none⟩

/-!  Model of `JSON.parse` and of the decision parsing in the LLM
service.  JS numbers coming out of `JSON.parse` are modelled exactly as
rationals (double rounding is not modelled; no claim depends on it). -/

/-- Parsed JSON values. -/
inductive Json where
  | null : Json
  | bool (b : Bool) : Json
  | num (q : ℚ) : Json
  | str (s : String) : Json
  | arr (elems : List Json) : Json
  | obj (fields : List (String × Json)) : Json
deriving Repr

/-- JSON whitespace accepted by `JSON.parse` between tokens. -/
def jsonWsChar (c : Char) : Bool :=
  c = ' ' || c = '\t' || c = '\n' || c = '\r'

/-- Skip leading JSON whitespace. -/
def skipJsonWs : List Char → List Char
  | [] => []
  | c :: cs => if jsonWsChar c then skipJsonWs cs else c :: cs

/-- Hexadecimal digit value, for `\u` escapes. -/
def hexVal (c : Char) : Option ℕ :=
  if '0' ≤ c ∧ c ≤ '9' then some (c.toNat - '0'.toNat)
  else if 'a' ≤ c ∧ c ≤ 'f' then some (c.toNat - 'a'.toNat + 10)
  else if 'A' ≤ c ∧ c ≤ 'F' then some (c.toNat - 'A'.toNat + 10)
  else none

/-- Body of a JSON string literal, after the opening quote: returns the
decoded characters and the input after the closing quote.  Unescaped
control characters are rejected, as `JSON.parse` does. -/
def parseJsonStringBody : List Char → Option (List Char × List Char)
  | [] => none
  | '"' :: rest => some ([], rest)
  | '\\' :: esc =>
    match esc with
    | '"' :: rest => (parseJsonStringBody rest).map (fun r => ('"' :: r.1, r.2))
    | '\\' :: rest => (parseJsonStringBody rest).map (fun r => ('\\' :: r.1, r.2))
    | '/' :: rest => (parseJsonStringBody rest).map (fun r => ('/' :: r.1, r.2))
    | 'b' :: rest => (parseJsonStringBody rest).map (fun r => ('\x08' :: r.1, r.2))
    | 'f' :: rest => (parseJsonStringBody rest).map (fun r => ('\x0c' :: r.1, r.2))
    | 'n' :: rest => (parseJsonStringBody rest).map (fun r => ('\n' :: r.1, r.2))
    | 'r' :: rest => (parseJsonStringBody rest).map (fun r => ('\r' :: r.1, r.2))
    | 't' :: rest => (parseJsonStringBody rest).map (fun r => ('\t' :: r.1, r.2))
    | 'u' :: h1 :: h2 :: h3 :: h4 :: rest =>
      match hexVal h1, hexVal h2, hexVal h3, hexVal h4 with
      | some a, some b, some c, some d =>
        (parseJsonStringBody rest).map
          (fun r => (Char.ofNat (((a * 16 + b) * 16 + c) * 16 + d) :: r.1, r.2))
      | _, _, _, _ => none
    | _ => none
  | c :: rest =>
    if c.toNat < 32 then none
    else (parseJsonStringBody rest).map (fun r => (c :: r.1, r.2))

/-- Numeric value of a digit run. -/
def digitsToNat (ds : List Char) : ℕ :=
  ds.foldl (fun n c => 10 * n + (c.toNat - '0'.toNat)) 0

/-- JSON number grammar: `-? (0 | [1-9][0-9]*) (.[0-9]+)? ([eE][+-]?[0-9]+)?`,
maximal munch with the leading-zero restriction. -/
def parseJsonNumber (cs : List Char) : Option (ℚ × List Char) :=
  let (neg, cs1) :=
    match cs with
    | '-' :: rest => (true, rest)
    | _ => (false, cs)
  let intPart : Option (ℕ × List Char) :=
    match cs1 with
    | '0' :: rest => some (0, rest)
    | c :: _ =>
      if c.isDigit then
        let ds := cs1.takeWhile Char.isDigit
        some (digitsToNat ds, cs1.drop ds.length)
      else none
    | [] => none
  match intPart with
  | none => none
  | some (ip, cs2) =>
    let fracPart : Option (ℚ × List Char) :=
      match cs2 with
      | '.' :: rest =>
        let ds := rest.takeWhile Char.isDigit
        if ds = [] then none
        else some ((digitsToNat ds : ℚ) / ((10 : ℚ) ^ ds.length), rest.drop ds.length)
      | _ => some (0, cs2)
    match fracPart with
    | none => none
    | some (fp, cs3) =>
      let expPart : Option (ℤ × List Char) :=
        match cs3 with
        | 'e' :: rest | 'E' :: rest =>
          let (esign, rest1) :=
            match rest with
            | '+' :: r => ((1 : ℤ), r)
            | '-' :: r => ((-1 : ℤ), r)
            | _ => ((1 : ℤ), rest)
          let ds := rest1.takeWhile Char.isDigit
          if ds = [] then none
          else some (esign * (digitsToNat ds : ℤ), rest1.drop ds.length)
        | _ => some (0, cs3)
      match expPart with
      | none => none
      | some (ex, cs4) =>
        let base : ℚ := (ip : ℚ) + fp
        let signed : ℚ := if neg then -base else base
        let scaled : ℚ :=
          if 0 ≤ ex then signed * (10 : ℚ) ^ ex.toNat else signed / (10 : ℚ) ^ (-ex).toNat
        some (scaled, cs4)

mutual

/-- One JSON value, fuelled recursive-descent (`JSON.parse` grammar). -/
def parseJsonValue : ℕ → List Char → Option (Json × List Char)
  | 0, _ => none
  | fuel + 1, cs =>
    match skipJsonWs cs with
    | 'n' :: 'u' :: 'l' :: 'l' :: rest => some (.null, rest)
    | 't' :: 'r' :: 'u' :: 'e' :: rest => some (.bool true, rest)
    | 'f' :: 'a' :: 'l' :: 's' :: 'e' :: rest => some (.bool false, rest)
    | '"' :: rest => (parseJsonStringBody rest).map (fun r => (.str ⟨r.1⟩, r.2))
    | '[' :: rest =>
      (match skipJsonWs rest with
       | ']' :: rest2 => some (.arr [], rest2)
       | _ => (parseJsonElems fuel rest).map (fun r => (.arr r.1, r.2)))
    | '{' :: rest =>
      (match skipJsonWs rest with
       | '}' :: rest2 => some (.obj [], rest2)
       | _ => (parseJsonMembers fuel rest).map (fun r => (.obj r.1, r.2)))
    | other => (parseJsonNumber other).map (fun r => (.num r.1, r.2))

/-- Comma-separated array elements up to the closing `]`. -/
def parseJsonElems : ℕ → List Char → Option (List Json × List Char)
  | 0, _ => none
  | fuel + 1, cs =>
    match parseJsonValue fuel cs with
    | none => none
    | some (v, rest) =>
      match skipJsonWs rest with
      | ',' :: rest2 => (parseJsonElems fuel rest2).map (fun r => (v :: r.1, r.2))
      | ']' :: rest2 => some ([v], rest2)
      | _ => none

/-- Comma-separated `"key": value` members up to the closing `}`. -/
def parseJsonMembers : ℕ → List Char → Option (List (String × Json) × List Char)
  | 0, _ => none
  | fuel + 1, cs =>
    match skipJsonWs cs with
    | '"' :: rest =>
      (match parseJsonStringBody rest with
       | none => none
       | some (key, rest1) =>
         match skipJsonWs rest1 with
         | ':' :: rest2 =>
           (match parseJsonValue fuel rest2 with
            | none => none
            | some (v, rest3) =>
              match skipJsonWs rest3 with
              | ',' :: rest4 => (parseJsonMembers fuel rest4).map (fun r => ((⟨key⟩, v) :: r.1, r.2))
              | '}' :: rest4 => some ([(⟨key⟩, v)], rest4)
              | _ => none)
         | _ => none)
    | _ => none

end

/-- Model of `JSON.parse` on a character list: one value, then only trailing
whitespace. -/
def jsonParseChars (cs : List Char) : Option Json :=
  match parseJsonValue (2 * cs.length + 2) cs with
  | some (v, rest) => if skipJsonWs rest = [] then some v else none
  | none => none

/-- Split on every (non-overlapping, leftmost-first) occurrence of
the ``` fence marker, like `String.prototype.split`. -/
def splitFence : List Char → List (List Char)
  | '`' :: '`' :: '`' :: rest => [] :: splitFence rest
  | c :: rest =>
    match splitFence rest with
    | [] => [[c]]
    | p :: ps => (c :: p) :: ps
  | [] => [[]]

/-- Strip one leading `json` tag, the `(?:json)?` of the fence regex. -/
def stripJsonTag : List Char → List Char
  | 'j' :: 's' :: 'o' :: 'n' :: rest => rest
  | cs => cs

/-- The fence-stripping step of `parseOrchestratorResponse`
(src/services/dynamoDbService.js:414-417): the regex
```(?:json)?\s*([\s\S]*?)``` matches iff the text has two fence markers;
its captured group is the text between the first two markers, minus an
optional `json` tag and leading whitespace — the latter subsumed by the
`.trim()` the source applies to the group. -/
def stripCodeFenceChars (cs : List Char) : List Char :=
  match splitFence cs with
  | _ :: mid :: _ :: _ => jsTrimChars (stripJsonTag mid)
  | _ => cs

/-- The object-extraction step (src/services/dynamoDbService.js:420-423):
the regex /\{[\s\S]*\}/ greedily matches from the first `{` that has some
later `}` through the last `}` of the string; when it does not match the
input is left unchanged. -/
def extractObjectChars (cs : List Char) : List Char :=
  let rest := cs.dropWhile (fun c => c ≠ '{')
  match rest with
  | [] => cs
  | _ :: tail =>
    let keep := (tail.reverse.dropWhile (fun c => c ≠ '}')).reverse
    if keep = [] then cs else '{' :: keep

/-- ASCII model of `String.prototype.toUpperCase`. -/
def jsUpper (s : String) : String := ⟨s.data.map Char.toUpper⟩

/-- The validated decision object: `{action: "RESPOND" | "WAIT"}`. -/
structure Decision where
  action : String
deriving DecidableEq, Repr

/-- The two throw sites of `parseOrchestratorResponse`, kept distinct. -/
inductive OrchErr where
  | jsonParseFailed (raw : String) : OrchErr
  | invalidDecision : OrchErr
deriving DecidableEq, Repr

def VALID_ORCHESTRATOR_ACTIONS : List String := ["RESPOND", "WAIT"]

/-- JS property lookup on a `JSON.parse` object result: with duplicate
keys the last occurrence wins. -/
def lastLookup (fields : List (String × Json)) (k : String) : Option Json :=
  (fields.reverse.find? (fun p => p.1 = k)).map Prod.snd

/-- The `decision.action` read: a value only for an object whose
`action` property is a string. -/
def jsonActionString : Json → Option String
  | .obj fields =>
    match lastLookup fields "action" with
    | some (.str a) => some a
    | _ => none
  | _ => none

/-- Embedding of `isValidOrchestratorDecision` (src/services/dynamoDbService.js:393-401):
requires a truthy object with a truthy string `action` whose upper-case
form is an allowed action.  Non-objects, arrays, missing / non-string /
empty `action` all fail. -/
def isValidOrchestratorDecision (v : Json) : Bool :=
  match jsonActionString v with
  | some a => !(a == "") && VALID_ORCHESTRATOR_ACTIONS.contains (jsUpper a)
  | none => false

/-- Embedding of `parseOrchestratorResponse` (src/services/dynamoDbService.js:409-440):
trim, strip one markdown code fence, extract the brace-delimited span,
`JSON.parse` it, validate, and return the upper-cased action. -/
def parseOrchestratorResponse (responseText : String) : Except OrchErr Decision :=
  let jsonStr0 := jsTrimChars responseText.data
  let jsonStr1 := stripCodeFenceChars jsonStr0
  let jsonStr2 := extractObjectChars jsonStr1
  match jsonParseChars jsonStr2 with
  | none => .error (.jsonParseFailed responseText)
  | some decision =>
    if isValidOrchestratorDecision decision then
      match jsonActionString decision with
      | some a => .ok ⟨jsUpper a⟩
      | none => .error .invalidDecision
    else .error .invalidDecision

/-!  The orchestrator handler (src/orchestrator.js:48-209).  The store
row set is a state record; the collaborator calls whose outcomes the
handler merely consumes (the two fetches, the decision LLM, the response
LLM, write success/failure) are supplied through an environment record.
The store-write functions `markMessageProcessed` and
`batchWriteResponseAndUpdate` are required from
`./services/dynamoDbService.js` but their implementations are not in the
sources, so their state effect is modelled from the spec. -/

/-- Persistent store state: the `datetime=0` metadata row plus the
message rows. -/
structure StoreState where
  metadata : Option ChatMetadata
  messages : List ChatMessage
deriving DecidableEq, Repr

/-- A committed store write, for the handler's write log. -/
inductive WriteOp where
  | markProcessed (datetime : ℚ) : WriteOp
  | batchWrite (newMessage : ChatMessage) (originalDatetime : ℚ) (newSpeakerIndex : ℚ) : WriteOp
deriving DecidableEq, Repr

/-- Modelled from the spec: the state effect of `markMessageProcessed`
(declared in src/orchestrator.js:13, implementation not in the sources)
— set `isProcessed=true` on the message row with the given sort key. -/
def markMessageProcessedStore (dt : ℚ) (s : StoreState) : StoreState :=
  { s with
    messages := s.messages.map (fun m => if m.datetime = dt then { m with isProcessed := true } else m) }

/-- Modelled from the spec: the state effect of
`batchWriteResponseAndUpdate` (declared in src/orchestrator.js:14,
implementation not in the sources) — one transactional write that
(a) inserts the new AI message, (b) marks the original message processed
and (c) updates the metadata's `nextSpeakerIndex`, atomically. -/
def batchWriteResponseAndUpdateStore (newMsg : ChatMessage) (origDt : ℚ) (newIdx : ℚ)
    (s : StoreState) : StoreState :=
  { metadata := s.metadata.map (fun md => { md with nextSpeakerIndex := newIdx }),
    messages := newMsg :: (markMessageProcessedStore origDt s).messages }

/-- Collaborator outcomes for one handler invocation: the fetches either
both succeed (`fetchOk`) or the invocation throws before reading
anything; `decision`/`genText` are the LLM call results; `markOk` /
`batchOk` tell whether the respective store write commits (a failed
write throws; a failed transactional write commits nothing); `now` is
`Date.now()` at message-creation time. -/
structure OrchestratorEnv where
  fetchOk : Bool
  decision : Except OrchErr Decision
  genText : Except String String
  markOk : Bool
  batchOk : Bool
  now : ℚ
deriving DecidableEq, Repr

/-- The handler's terminal outcome (the JSON bodies of
src/orchestrator.js, with `errored` for the catch-all 500). -/
inductive HandlerOutcome where
  | exit (reason : String) : HandlerOutcome
  | waitDone (messageProcessed : ℚ) : HandlerOutcome
  | respondDone (speaker provider : String)
      (newMessageDatetime originalMessageProcessed newSpeakerIndex : ℚ) : HandlerOutcome
  | unexpectedDecision : HandlerOutcome
  | errored : HandlerOutcome
deriving DecidableEq, Repr

/-- The orchestrator handler (src/orchestrator.js:48-209) as a function
of the two fetched items, the collaborator outcomes and the store state;
returns the terminal outcome, the post-state responding to the committed
writes, and the log of committed writes.  Every thrown exception —
failed fetch, LLM failure, invalid generated message, speaker errors,
failed store write — lands in the top-level catch (`errored`). -/
def orchestratorHandler (metadata : Option ChatMetadata) (latestMessage : Option ChatMessage)
    (env : OrchestratorEnv) (store : StoreState) :
    HandlerOutcome × StoreState × List WriteOp :=
  if env.fetchOk = false then (.errored, store, [])
  else
    match metadata with
    | none => (.exit "Metadata not found", store, [])
    | some md =>
      match latestMessage with
      | none => (.exit "No messages exist", store, [])
      | some lm =>
        if lm.datetime = 0 then (.exit "No messages to process", store, [])
        else if lm.isProcessed = true then (.exit "Message already processed", store, [])
        else
          match env.decision with
          | .error _ => (.errored, store, [])
          | .ok decision =>
            if decision.action = "WAIT" then
              if env.markOk then
                (.waitDone lm.datetime, markMessageProcessedStore lm.datetime store,
                 [.markProcessed lm.datetime])
              else (.errored, store, [])
            else if decision.action = "RESPOND" then
              match getNextSpeaker md with
              | .error _ => (.errored, store, [])
              | .ok none => (.errored, store, [])
              | .ok (some currentSpeaker) =>
                match env.genText with
                | .error _ => (.errored, store, [])
                | .ok responseText =>
                  match createChatMessage currentSpeaker.name responseText none env.now with
                  | .error _ => (.errored, store, [])
                  | .ok newMessage =>
                    match incrementSpeakerIndex md.nextSpeakerIndex
                        (md.llmParticipants.length : ℚ) with
                    | .error _ => (.errored, store, [])
                    | .ok newSpeakerIndex =>
                      if env.batchOk then
                        (.respondDone currentSpeaker.name currentSpeaker.provider
                           newMessage.datetime lm.datetime newSpeakerIndex,
                         batchWriteResponseAndUpdateStore newMessage lm.datetime
                           newSpeakerIndex store,
                         [.batchWrite newMessage lm.datetime newSpeakerIndex])
                      else (.errored, store, [])
            else (.unexpectedDecision, store, [])

/-!  Helper lemmas. -/

/-- On natural inputs `jsMod` is `Nat.mod`. -/
theorem jsMod_natCast (n m : ℕ) :
    jsMod (n : ℚ) (m : ℚ) = ((n % m : ℕ) : ℚ) := by
  unfold jsMod
  rw [Rat.floor_natCast_div_natCast]
  rw [show ((n : ℤ) / (m : ℤ)) = ((n / m : ℕ) : ℤ) from (Int.natCast_div n m).symm,
    Int.cast_natCast]
  have hdm : (m * (n / m) + n % m : ℕ) = n := Nat.div_add_mod n m
  have h : ((m : ℚ)) * ((n / m : ℕ) : ℚ) + ((n % m : ℕ) : ℚ) = (n : ℚ) := by
    exact_mod_cast congrArg (fun x : ℕ => (x : ℚ)) hdm
  linarith

/-- At an in-bounds natural index `jsArrayGet` is plain list lookup. -/
theorem jsArrayGet_natCast {α : Type} (l : List α) (k : ℕ) (hk : k < l.length) :
    jsArrayGet l (k : ℚ) = l.get? k := by
  unfold jsArrayGet
  rw [dif_pos]
  · rw [List.get?_eq_get (by simpa using hk)]
    simp
  · refine ⟨Rat.den_natCast k, ?_, ?_⟩ <;> simp [hk]

/-- Iterating the round-robin step from an in-range start. -/
theorem iterate_incStep (count : ℕ) (hc : 0 < count) :
    ∀ (j idx : ℕ), idx < count → Nat.iterate (incStep count) j idx = (idx + j) % count := by
  intro j
  induction j with
  | zero => intro idx hidx; simpa using (Nat.mod_eq_of_lt hidx).symm
  | succ j ih =>
    intro idx hidx
    rw [Function.iterate_succ_apply]
    have hstep : incStep count idx = (idx + 1) % count := rfl
    have h1 : (idx + 1) % count < count := Nat.mod_lt _ hc
    rw [hstep, ih _ h1, Nat.mod_add_mod]
    congr 1
    omega

/-- Success characterisation of `validateChatMessage`. -/
theorem validateChatMessage_ok_iff (m : ChatMessage) :
    validateChatMessage m = .ok () ↔
      m.id = "chat" ∧ 0 < m.datetime ∧ validSenders.contains m.sender = true
        ∧ m.message ≠ "" := by
  unfold validateChatMessage
  split_ifs with h1 h2 h3 h4 <;> simp_all

/-- Success characterisation of `validateParticipant`. -/
theorem validateParticipant_ok_iff (p : Participant) :
    validateParticipant p = .ok () ↔
      validProviders.contains p.provider = true ∧ p.name ≠ ""
        ∧ p.personality.moods ≠ [] ∧ p.personality.phrase ≠ "" := by
  unfold validateParticipant
  split_ifs with h1 h2 h3 h4 <;> simp_all

/-- Allowed senders are non-empty strings. -/
theorem contains_validSenders_ne (s : String) (h : validSenders.contains s = true) :
    s ≠ "" := by
  intro he
  subst he
  exact absurd h (by decide)

/-- Allowed providers are non-empty strings. -/
theorem contains_validProviders_ne (s : String) (h : validProviders.contains s = true) :
    s ≠ "" := by
  intro he
  subst he
  exact absurd h (by decide)

/-- The fold `validateParticipants` succeeds exactly when every member validates. -/
theorem validateParticipants_ok_iff (ps : List Participant) :
    validateParticipants ps = .ok () ↔ ∀ p ∈ ps, validateParticipant p = .ok () := by
  induction ps with
  | nil => simp [validateParticipants]
  | cons p ps ih =>
    simp only [validateParticipants, List.mem_cons]
    cases hv : validateParticipant p with
    | error e =>
      constructor
      · intro h; cases h
      · intro h
        have := h p (Or.inl rfl)
        rw [hv] at this; cases this
    | ok u =>
      cases u
      rw [ih]
      constructor
      · intro h q hq
        rcases hq with rfl | hq
        · exact hv
        · exact h q hq
      · intro h q hq
        exact h q (Or.inr hq)

/-- Success characterisation of `validateChatMetadata`. -/
theorem validateChatMetadata_ok_iff (md : ChatMetadata) :
    validateChatMetadata md = .ok () ↔
      md.id = "chat" ∧ md.datetime = 0 ∧ md.llmParticipants ≠ []
        ∧ validateParticipants md.llmParticipants = .ok ()
        ∧ 0 ≤ md.nextSpeakerIndex
        ∧ md.nextSpeakerIndex < (md.llmParticipants.length : ℚ) := by
  unfold validateChatMetadata
  cases hv : validateParticipants md.llmParticipants with
  | error e => split_ifs <;> simp_all
  | ok u =>
    cases u
    split_ifs with h1 h2 h3 h4 h5 <;> simp_all [not_lt, not_le]

/-- A valid participant serialises to its wire image. -/
theorem serializeParticipant_ok (p : Participant) (h : validateParticipant p = .ok ()) :
    serializeParticipant p = .ok (participantWire p) := by
  unfold serializeParticipant
  rw [h]
  rfl

/-- A valid participant's wire image deserialises back to it. -/
theorem deserializeParticipant_wire (p : Participant) (h : validateParticipant p = .ok ()) :
    deserializeParticipant (participantWire p) = .ok p := by
  obtain ⟨hprov, hname, _, hphrase⟩ := (validateParticipant_ok_iff p).mp h
  unfold deserializeParticipant participantWire
  simp only
  rw [if_neg hname, if_neg (contains_validProviders_ne _ hprov), if_neg hphrase]

/-- Serialising a list of valid participants. -/
theorem mapM_serializeParticipant (ps : List Participant)
    (h : ∀ p ∈ ps, validateParticipant p = .ok ()) :
    ps.mapM serializeParticipant = .ok (ps.map participantWire) := by
  induction ps with
  | nil => rfl
  | cons p ps ih =>
    rw [List.mapM_cons, serializeParticipant_ok p (h p (List.mem_cons_self p ps)),
      ih (fun q hq => h q (List.mem_cons_of_mem p hq))]
    rfl

/-- Deserialising the wire images of a list of valid participants. -/
theorem mapM_deserializeParticipant (ps : List Participant)
    (h : ∀ p ∈ ps, validateParticipant p = .ok ()) :
    (ps.map participantWire).mapM deserializeParticipant = .ok ps := by
  induction ps with
  | nil => rfl
  | cons p ps ih =>
    rw [List.map_cons, List.mapM_cons,
      deserializeParticipant_wire p (h p (List.mem_cons_self p ps)),
      ih (fun q hq => h q (List.mem_cons_of_mem p hq))]
    rfl

/-- Evaluating `deserializeChatMetadata` on a fully-present wire record
whose participants deserialise and whose reconstruction validates. -/
theorem deserializeChatMetadata_wire (i : String) (dt : ℚ) (wps : List WireParticipant)
    (idx : ℚ) (parts : List Participant) (hi : i ≠ "")
    (hparts : wps.mapM deserializeParticipant = .ok parts)
    (hval : validateChatMetadata ⟨i, dt, parts, idx⟩ = .ok ()) :
    deserializeChatMetadata ⟨some i, some dt, some wps, some idx⟩ = .ok ⟨i, dt, parts, idx⟩ := by
  unfold deserializeChatMetadata
  simp only
  rw [if_neg hi]
  simp only [hparts, hval]

/-!  Claim theorems. -/

/-- C7: `incrementSpeakerIndex(idx, count)` equals `(idx+1) mod count`
for integers `count ≥ 1` and `idx ∈ [0, count)` (and in fact for every
natural `idx`); it fails with an error whenever `participantCount ≤ 0`
or `currentIndex < 0`; and composing the round-robin step `count` times
from any in-range start returns the start (cycle closure).  Purity and
determinism hold because the embedding is a function of its arguments. -/
theorem c7_incrementSpeakerIndex_spec (count idx : ℕ) (hc : 1 ≤ count) (hi : idx < count) :
    incrementSpeakerIndex (idx : ℚ) (count : ℚ) = .ok (((idx + 1) % count : ℕ) : ℚ)
    ∧ (∀ q c : ℚ, c ≤ 0 → ∃ e, incrementSpeakerIndex q c = .error e)
    ∧ (∀ q c : ℚ, q < 0 → ∃ e, incrementSpeakerIndex q c = .error e)
    ∧ (∀ j : ℕ, incrementSpeakerIndex (j : ℚ) (count : ℚ) = .ok ((incStep count j : ℕ) : ℚ))
    ∧ Nat.iterate (incStep count) count idx = idx := by
  have hok : ∀ j : ℕ, incrementSpeakerIndex (j : ℚ) (count : ℚ)
      = .ok ((incStep count j : ℕ) : ℚ) := by
    intro j
    unfold incrementSpeakerIndex
    rw [if_neg (not_lt.mpr (by positivity)),
      if_neg (not_le.mpr (by exact_mod_cast Nat.lt_of_lt_of_le Nat.zero_lt_one hc))]
    have : ((j : ℚ) + 1) = ((j + 1 : ℕ) : ℚ) := by push_cast; ring
    rw [this, jsMod_natCast]
    rfl
  refine ⟨?_, ?_, ?_, hok, ?_⟩
  · simpa [incStep] using hok idx
  · intro q c hcle
    unfold incrementSpeakerIndex
    by_cases hq : q < 0
    · exact ⟨_, by rw [if_pos hq]⟩
    · exact ⟨_, by rw [if_neg hq, if_pos hcle]⟩
  · intro q c hq
    exact ⟨_, by unfold incrementSpeakerIndex; rw [if_pos hq]⟩
  · rw [iterate_incStep count hc count idx hi, Nat.add_mod_right, Nat.mod_eq_of_lt hi]

/-- Witness for C7 at `count = 3`, `idx = 2`. -/
theorem c7_incrementSpeakerIndex_spec_witness :
    incrementSpeakerIndex ((2 : ℕ) : ℚ) ((3 : ℕ) : ℚ) = .ok (((2 + 1) % 3 : ℕ) : ℚ)
    ∧ Nat.iterate (incStep 3) 3 2 = 2 := by
  have h := c7_incrementSpeakerIndex_spec 3 2 (by decide) (by decide)
  exact ⟨h.1, h.2.2.2.2⟩

/-- C8: with a non-empty participant list and a non-negative index,
`getNextSpeaker` returns the JS array lookup at the JS-wrapped index
`nextSpeakerIndex % length` (for an integer index `k` this is the
participant at position `k mod length`, so with 3 participants the
indices 0,1,2 select them in order and 3 wraps to 0 — instantiated in
the witness); it errors when the list is empty or the index is negative.
A non-numeric index is not representable in the typed embedding. -/
theorem c8_getNextSpeaker_spec (md : ChatMetadata) (hne : md.llmParticipants ≠ [])
    (hnn : 0 ≤ md.nextSpeakerIndex) :
    getNextSpeaker md
      = .ok (jsArrayGet md.llmParticipants
          (jsMod md.nextSpeakerIndex (md.llmParticipants.length : ℚ)))
    ∧ (∀ k : ℕ, md.nextSpeakerIndex = (k : ℚ) →
        getNextSpeaker md = .ok (md.llmParticipants.get? (k % md.llmParticipants.length)))
    ∧ (∀ md2 : ChatMetadata, md2.llmParticipants = [] → ∃ e, getNextSpeaker md2 = .error e)
    ∧ (∀ md2 : ChatMetadata, md2.nextSpeakerIndex < 0 → ∃ e, getNextSpeaker md2 = .error e) := by
  have hbase : getNextSpeaker md
      = .ok (jsArrayGet md.llmParticipants
          (jsMod md.nextSpeakerIndex (md.llmParticipants.length : ℚ))) := by
    unfold getNextSpeaker
    rw [if_neg hne, if_neg (not_lt.mpr hnn)]
  refine ⟨hbase, ?_, ?_, ?_⟩
  · intro k hk
    have hlen : 0 < md.llmParticipants.length := List.length_pos.mpr hne
    rw [hbase, hk, jsMod_natCast,
      jsArrayGet_natCast _ _ (Nat.mod_lt _ hlen)]
  · intro md2 h2
    exact ⟨_, by unfold getNextSpeaker; rw [if_pos h2]⟩
  · intro md2 h2
    by_cases hemp : md2.llmParticipants = []
    · exact ⟨_, by unfold getNextSpeaker; rw [if_pos hemp]⟩
    · exact ⟨_, by unfold getNextSpeaker; rw [if_neg hemp, if_pos h2]⟩

/-- Witness for C8: three participants; indices 0,1,2 select
participants 0,1,2 and the out-of-bound index 3 wraps to participant 0. -/
theorem c8_getNextSpeaker_spec_witness :
    getNextSpeaker ⟨"chat", 0, [⟨"gemini", "google", ⟨["a"], "x"⟩⟩,
        ⟨"claude", "anthropic", ⟨["b"], "y"⟩⟩, ⟨"openai", "openai", ⟨["c"], "z"⟩⟩], (0 : ℕ)⟩
      = .ok (some ⟨"gemini", "google", ⟨["a"], "x"⟩⟩)
    ∧ getNextSpeaker ⟨"chat", 0, [⟨"gemini", "google", ⟨["a"], "x"⟩⟩,
        ⟨"claude", "anthropic", ⟨["b"], "y"⟩⟩, ⟨"openai", "openai", ⟨["c"], "z"⟩⟩], (1 : ℕ)⟩
      = .ok (some ⟨"claude", "anthropic", ⟨["b"], "y"⟩⟩)
    ∧ getNextSpeaker ⟨"chat", 0, [⟨"gemini", "google", ⟨["a"], "x"⟩⟩,
        ⟨"claude", "anthropic", ⟨["b"], "y"⟩⟩, ⟨"openai", "openai", ⟨["c"], "z"⟩⟩], (2 : ℕ)⟩
      = .ok (some ⟨"openai", "openai", ⟨["c"], "z"⟩⟩)
    ∧ getNextSpeaker ⟨"chat", 0, [⟨"gemini", "google", ⟨["a"], "x"⟩⟩,
        ⟨"claude", "anthropic", ⟨["b"], "y"⟩⟩, ⟨"openai", "openai", ⟨["c"], "z"⟩⟩], (3 : ℕ)⟩
      = .ok (some ⟨"gemini", "google", ⟨["a"], "x"⟩⟩) := by
  refine ⟨?_, ?_, ?_, ?_⟩ <;>
    · rw [(c8_getNextSpeaker_spec _ (by simp) (by positivity)).2.1 _ rfl]
      rfl

/-- C10: the metadata with three valid participants and the
non-integer `nextSpeakerIndex = 1.5` passes `validateChatMetadata`
(which only requires a number in `[0, 3)`) while `getNextSpeaker`
raises no error yet returns no participant: `1.5 % 3 = 1.5` and the JS
array lookup at a fractional index is `undefined`. -/
theorem c10_fractional_index_no_participant :
    validateChatMetadata ⟨"chat", 0, [⟨"gemini", "google", ⟨["a"], "x"⟩⟩,
        ⟨"claude", "anthropic", ⟨["b"], "y"⟩⟩, ⟨"openai", "openai", ⟨["c"], "z"⟩⟩],
        (3 / 2 : ℚ)⟩ = .ok ()
    ∧ getNextSpeaker ⟨"chat", 0, [⟨"gemini", "google", ⟨["a"], "x"⟩⟩,
        ⟨"claude", "anthropic", ⟨["b"], "y"⟩⟩, ⟨"openai", "openai", ⟨["c"], "z"⟩⟩],
        (3 / 2 : ℚ)⟩ = .ok none := by
  constructor
  · norm_num [validateChatMetadata, validateParticipants, validateParticipant, validProviders]
    rfl
  · unfold getNextSpeaker
    rw [if_neg (by simp), if_neg (by norm_num)]
    have hmod : jsMod (3 / 2 : ℚ) ((3 : ℕ) : ℚ) = 3 / 2 := by
      norm_num [jsMod]
    have hden : ((3 / 2 : ℚ)).den = 2 := by
      rw [show (3 / 2 : ℚ) = (3 : ℚ) * (2 : ℚ)⁻¹ by ring]
      norm_num
    simp only [List.length_cons, List.length_nil]
    rw [show ((2 + 1 : ℕ) : ℚ) = ((3 : ℕ) : ℚ) by norm_num, hmod]
    unfold jsArrayGet
    rw [dif_neg (by rw [hden]; simp)]

/-- C3 counterexample: a message sent 30 seconds ago is denied, but the
result carries no `waitSeconds` field at all (the claim says
`waitSeconds = 30`); the computed wait only appears inside the
human-readable `message` string. -/
theorem c3_counterexample :
    (checkMessageRateLimit (some 1699999970000) 1700000000000).canSend = false
    ∧ (checkMessageRateLimit (some 1699999970000) 1700000000000).waitSeconds = none
    ∧ (checkMessageRateLimit (some 1699999970000) 1700000000000).waitSeconds ≠ some 30
    ∧ (checkMessageRateLimit (some 1699999970000) 1700000000000).message
        = some "Please wait 30 seconds before sending another message." := by
  have h : checkMessageRateLimit (some 1699999970000) 1700000000000
      = ⟨false, some (waitMessage 30), none⟩ := by
    simp only [checkMessageRateLimit]
    rw [if_pos (by norm_num)]
    norm_num
  rw [h]
  refine ⟨rfl, rfl, by simp, ?_⟩
  rfl

/-- C3 as amended: no prior message allows; elapsed ≥ 60 s allows;
elapsed < 60 s denies with `canSend=false` and a message embedding
`ceil(60 - elapsed)` seconds — the result has no `waitSeconds` field
(`none` in the modelled shape). -/
theorem c3_checkMessageRateLimit_spec (now lastTimestamp : ℚ) :
    checkMessageRateLimit none now = ⟨true, none, none⟩
    ∧ (60 ≤ (now - lastTimestamp) / 1000 →
        checkMessageRateLimit (some lastTimestamp) now = ⟨true, none, none⟩)
    ∧ ((now - lastTimestamp) / 1000 < 60 →
        checkMessageRateLimit (some lastTimestamp) now
          = ⟨false, some (waitMessage ⌈60 - (now - lastTimestamp) / 1000⌉), none⟩) := by
  refine ⟨rfl, ?_, ?_⟩
  · intro h
    simp only [checkMessageRateLimit]
    rw [if_neg (not_lt.mpr h)]
  · intro h
    simp only [checkMessageRateLimit]
    rw [if_pos h]

/-- Witness for C3: last message 70 s ago allows; last message 1 s ago
denies asking for 59 more seconds. -/
theorem c3_checkMessageRateLimit_spec_witness :
    checkMessageRateLimit (some 1699999930000) 1700000000000 = ⟨true, none, none⟩
    ∧ checkMessageRateLimit (some 1699999999000) 1700000000000
        = ⟨false, some "Please wait 59 seconds before sending another message.", none⟩ := by
  constructor
  · exact (c3_checkMessageRateLimit_spec 1700000000000 1699999930000).2.1 (by norm_num)
  · rw [(c3_checkMessageRateLimit_spec 1700000000000 1699999999000).2.2 (by norm_num)]
    norm_num
    rfl

/-- C6 counterexample: the record persisted by the inbound chat-send
path's `storeChatMessage` has no `isProcessed` attribute at all — in
particular it does not carry `isProcessed=false` as the claim states. -/
theorem c6_counterexample :
    (storeChatMessageItem "hello" "user" (some "a@b.c") 1700000000000).isProcessed = none
    ∧ (storeChatMessageItem "hello" "user" (some "a@b.c") 1700000000000).isProcessed
        ≠ some false := by
  exact ⟨rfl, by simp [storeChatMessageItem]⟩

/-- C6 as amended: every message built by `createChatMessage` has
`isProcessed = false`, for every accepted sender/content/email; the
inbound chat-send path stores the record
`{id:"chat", message, sender, datetime, email}` with no `isProcessed`
attribute (absent, not `false`). -/
theorem c6_new_messages_unprocessed :
    (∀ (sender content : String) (email : Option String) (now : ℚ) (m : ChatMessage),
       createChatMessage sender content email now = .ok m → m.isProcessed = false)
    ∧ (∀ (message sender : String) (email : Option String) (now : ℚ),
       storeChatMessageItem message sender email now
         = ⟨"chat", message, sender, now, email, none⟩) := by
  constructor
  · intro sender content email now m h
    unfold createChatMessage at h
    cases hv : validateChatMessage ⟨"chat", now, sender, content, false, email⟩ with
    | error e => rw [hv] at h; cases h
    | ok u => rw [hv] at h; cases u; cases h; rfl
  · intro message sender email now
    rfl

/-- Witness for C6 at a concrete accepted message. -/
theorem c6_new_messages_unprocessed_witness :
    ∃ m, createChatMessage "user" "hi" (some "a@b.c") 5 = .ok m ∧ m.isProcessed = false := by
  refine ⟨⟨"chat", 5, "user", "hi", false, some "a@b.c"⟩, by decide, ?_⟩
  exact c6_new_messages_unprocessed.1 "user" "hi" (some "a@b.c") 5 _ (by decide)

/-- C5 counterexample: the message with the empty-string email `""` is
valid (the JS validation only type-checks `email`), but `item.email &&
item.email.S` drops the empty string on deserialisation, so the
round-trip returns a different entity with the email absent. -/
theorem c5_counterexample :
    validateChatMessage ⟨"chat", 5, "user", "hi", false, some ""⟩ = .ok ()
    ∧ (serializeChatMessage ⟨"chat", 5, "user", "hi", false, some ""⟩).bind
        deserializeChatMessage = .ok ⟨"chat", 5, "user", "hi", false, none⟩
    ∧ (⟨"chat", 5, "user", "hi", false, none⟩ : ChatMessage)
        ≠ ⟨"chat", 5, "user", "hi", false, some ""⟩ := by
  exact ⟨by decide, by decide, by decide⟩

/-- C5 as amended: `deserialize ∘ serialize = id` on every valid
ChatMetadata and every valid Participant, and on every valid ChatMessage
whose email is not the (valid but truthiness-dropped) empty string. -/
theorem c5_roundTrip_spec :
    (∀ m : ChatMessage, validateChatMessage m = .ok () → m.email ≠ some "" →
       (serializeChatMessage m).bind deserializeChatMessage = .ok m)
    ∧ (∀ md : ChatMetadata, validateChatMetadata md = .ok () →
       (serializeChatMetadata md).bind deserializeChatMetadata = .ok md)
    ∧ (∀ p : Participant, validateParticipant p = .ok () →
       (serializeParticipant p).bind deserializeParticipant = .ok p) := by
  refine ⟨?_, ?_, ?_⟩
  · intro m hval hemail
    obtain ⟨hid, hdt, hsender, hmsg⟩ := (validateChatMessage_ok_iff m).mp hval
    have hsne := contains_validSenders_ne _ hsender
    unfold serializeChatMessage
    rw [hval]
    show deserializeChatMessage
      ⟨some m.id, some m.datetime, some m.sender, some m.message, some m.isProcessed, m.email⟩
      = .ok m
    unfold deserializeChatMessage
    simp only
    rw [if_neg (by rw [hid]; decide), if_neg hsne, if_neg hmsg]
    have hemval : (match m.email with
        | some e => if e = "" then (none : Option String) else some e
        | none => none) = m.email := by
      cases hme : m.email with
      | none => rfl
      | some e =>
        have he : e ≠ "" := by
          intro h
          subst h
          exact hemail hme
        simp [he]
    rw [hemval]
  · intro md hmd
    obtain ⟨hid, hdt, hne, hps, hge, hlt⟩ := (validateChatMetadata_ok_iff md).mp hmd
    have hmem := (validateParticipants_ok_iff _).mp hps
    unfold serializeChatMetadata
    rw [hmd, mapM_serializeParticipant _ hmem]
    show deserializeChatMetadata
      ⟨some md.id, some md.datetime, some (md.llmParticipants.map participantWire),
        some md.nextSpeakerIndex⟩ = .ok md
    exact deserializeChatMetadata_wire md.id md.datetime _ md.nextSpeakerIndex
      md.llmParticipants (by rw [hid]; decide)
      (mapM_deserializeParticipant _ hmem) hmd
  · intro p hp
    rw [serializeParticipant_ok p hp]
    exact deserializeParticipant_wire p hp

/-- Witness for C5 at a concrete message, metadata and participant. -/
theorem c5_roundTrip_spec_witness :
    (serializeChatMessage ⟨"chat", 5, "user", "hi", false, some "a@b.c"⟩).bind
        deserializeChatMessage = .ok ⟨"chat", 5, "user", "hi", false, some "a@b.c"⟩
    ∧ (serializeChatMetadata ⟨"chat", 0, [⟨"gemini", "google", ⟨["m"], "p"⟩⟩], 0⟩).bind
        deserializeChatMetadata = .ok ⟨"chat", 0, [⟨"gemini", "google", ⟨["m"], "p"⟩⟩], 0⟩
    ∧ (serializeParticipant ⟨"gemini", "google", ⟨["m"], "p"⟩⟩).bind deserializeParticipant
        = .ok ⟨"gemini", "google", ⟨["m"], "p"⟩⟩ := by
  refine ⟨c5_roundTrip_spec.1 _ (by decide) (by decide), c5_roundTrip_spec.2.1 _ ?_,
    c5_roundTrip_spec.2.2 _ (by decide)⟩
  rw [validateChatMetadata_ok_iff]
  refine ⟨rfl, rfl, by decide, by decide, le_refl 0, ?_⟩
  norm_num

/-- C9 counterexample: `deserializeChatMessage` returns a message whose
sender `"robot"` is outside the allowed set — it does not validate the
reconstructed entity. -/
theorem c9_counterexample :
    deserializeChatMessage ⟨some "chat", some 5, some "robot", some "hi", some false, none⟩
        = .ok ⟨"chat", 5, "robot", "hi", false, none⟩
    ∧ validateChatMessage ⟨"chat", 5, "robot", "hi", false, none⟩ ≠ .ok () := by
  exact ⟨by decide, by decide⟩

/-- C9 as amended: both serializers validate before emitting a wire
record (they return the validation error unchanged on invalid input),
and `deserializeChatMetadata` validates the reconstructed entity before
returning it; but `deserializeChatMessage` performs only structural
checks and can return an entity that fails validation. -/
theorem c9_validation_discipline :
    (∀ (m : ChatMessage) (e : String), validateChatMessage m = .error e →
        serializeChatMessage m = .error e)
    ∧ (∀ (md : ChatMetadata) (e : String), validateChatMetadata md = .error e →
        serializeChatMetadata md = .error e)
    ∧ (∀ (w : WireMetadata) (md : ChatMetadata), deserializeChatMetadata w = .ok md →
        validateChatMetadata md = .ok ())
    ∧ (∃ (w : WireMessage) (m : ChatMessage),
        deserializeChatMessage w = .ok m ∧ validateChatMessage m ≠ .ok ()) := by
  refine ⟨?_, ?_, ?_, ?_⟩
  · intro m e h
    unfold serializeChatMessage
    rw [h]
  · intro md e h
    unfold serializeChatMetadata
    rw [h]
  · intro w md h
    unfold deserializeChatMetadata at h
    repeat' split at h
    all_goals cases h
    all_goals simp_all
  · exact ⟨⟨some "chat", some 5, some "robot", some "hi", some false, none⟩,
      ⟨"chat", 5, "robot", "hi", false, none⟩, by decide, by decide⟩

/-- Witness for C9: a message with a bad id is rejected by serialization
with the validation error, and a concrete wire metadata deserialises to
a validated entity. -/
theorem c9_validation_discipline_witness :
    serializeChatMessage ⟨"nope", 5, "user", "hi", false, none⟩
        = .error "Message id must be \"chat\""
    ∧ validateChatMetadata ⟨"chat", 0, [⟨"gemini", "google", ⟨["m"], "p"⟩⟩], 0⟩ = .ok () := by
  constructor
  · exact c9_validation_discipline.1 _ _ (by decide)
  · refine c9_validation_discipline.2.2.1
      ⟨some "chat", some 0, some [⟨some "gemini", some "google", some ["m"], some "p"⟩], some 0⟩
      _ ?_
    exact deserializeChatMetadata_wire "chat" 0 _ 0 [⟨"gemini", "google", ⟨["m"], "p"⟩⟩]
      (by decide) (by decide)
      (by
        rw [validateChatMetadata_ok_iff]
        refine ⟨rfl, rfl, by decide, by decide, le_refl 0, by norm_num⟩)

/-- C2: whenever metadata exists and the fetched latest item is a real
message (`datetime > 0`) already marked `isProcessed`, the handler exits
with "Message already processed", leaves the store untouched and commits
no write at all. -/
theorem c2_idempotence_guard (md : ChatMetadata) (lm : ChatMessage)
    (env : OrchestratorEnv) (store : StoreState)
    (hf : env.fetchOk = true) (hdt : 0 < lm.datetime) (hp : lm.isProcessed = true) :
    orchestratorHandler (some md) (some lm) env store
      = (.exit "Message already processed", store, []) := by
  simp [orchestratorHandler, hf, hp, hdt.ne']

/-- Witness for C2 at a concrete store and message. -/
theorem c2_idempotence_guard_witness :
    orchestratorHandler
      (some ⟨"chat", 0, [⟨"gemini", "google", ⟨["m"], "p"⟩⟩], 0⟩)
      (some ⟨"chat", 5, "user", "hi", true, none⟩)
      ⟨true, .ok ⟨"WAIT"⟩, .ok "x", true, true, 6⟩
      ⟨some ⟨"chat", 0, [⟨"gemini", "google", ⟨["m"], "p"⟩⟩], 0⟩,
        [⟨"chat", 5, "user", "hi", true, none⟩]⟩
      = (.exit "Message already processed",
         ⟨some ⟨"chat", 0, [⟨"gemini", "google", ⟨["m"], "p"⟩⟩], 0⟩,
           [⟨"chat", 5, "user", "hi", true, none⟩]⟩, []) :=
  c2_idempotence_guard _ _ _ _ rfl (by norm_num) rfl

/-- C1: on a RESPOND decision over an unprocessed real message, the
handler's persistent effect is all-or-nothing — either exactly one
committed write, the transactional `batchWrite` carrying the three
changes (insert the new AI message, mark the trigger processed, advance
`nextSpeakerIndex`), or no write and an unchanged store with an ERROR
outcome; in particular any failing step (response LLM failure, failed
transaction) leaves the store exactly as it was. -/
theorem c1_respond_atomic (md : ChatMetadata) (lm : ChatMessage) (env : OrchestratorEnv)
    (store : StoreState) (hf : env.fetchOk = true)
    (hd : env.decision = .ok ⟨"RESPOND"⟩) (h0 : lm.datetime ≠ 0) (hp : lm.isProcessed = false) :
    ((orchestratorHandler (some md) (some lm) env store).2.1 = store
       ∧ (orchestratorHandler (some md) (some lm) env store).2.2 = []
       ∧ (orchestratorHandler (some md) (some lm) env store).1 = .errored
     ∨ ∃ newMsg newIdx,
         (orchestratorHandler (some md) (some lm) env store).2.1
           = batchWriteResponseAndUpdateStore newMsg lm.datetime newIdx store
         ∧ (orchestratorHandler (some md) (some lm) env store).2.2
           = [.batchWrite newMsg lm.datetime newIdx]
         ∧ env.batchOk = true)
    ∧ (env.batchOk = false →
        (orchestratorHandler (some md) (some lm) env store).2.1 = store
        ∧ (orchestratorHandler (some md) (some lm) env store).2.2 = []
        ∧ (orchestratorHandler (some md) (some lm) env store).1 = .errored)
    ∧ (∀ e, env.genText = .error e →
        (orchestratorHandler (some md) (some lm) env store).2.1 = store
        ∧ (orchestratorHandler (some md) (some lm) env store).2.2 = []
        ∧ (orchestratorHandler (some md) (some lm) env store).1 = .errored) := by
  have key : orchestratorHandler (some md) (some lm) env store = (.errored, store, [])
      ∨ ∃ (sp : Participant) (newMsg : ChatMessage) (newIdx : ℚ),
          orchestratorHandler (some md) (some lm) env store
            = (.respondDone sp.name sp.provider newMsg.datetime lm.datetime newIdx,
               batchWriteResponseAndUpdateStore newMsg lm.datetime newIdx store,
               [.batchWrite newMsg lm.datetime newIdx])
          ∧ env.batchOk = true ∧ (∃ t, env.genText = .ok t) := by
    cases hsp : getNextSpeaker md with
    | error e =>
      exact Or.inl (by simp [orchestratorHandler, hf, hd, h0, hp, hsp])
    | ok osp =>
      cases osp with
      | none =>
        exact Or.inl (by simp [orchestratorHandler, hf, hd, h0, hp, hsp])
      | some sp =>
        cases hgen : env.genText with
        | error e =>
          exact Or.inl (by simp [orchestratorHandler, hf, hd, h0, hp, hsp, hgen])
        | ok txt =>
          cases hcr : createChatMessage sp.name txt none env.now with
          | error e =>
            exact Or.inl (by simp [orchestratorHandler, hf, hd, h0, hp, hsp, hgen, hcr])
          | ok newMsg =>
            cases hinc : incrementSpeakerIndex md.nextSpeakerIndex
                (md.llmParticipants.length : ℚ) with
            | error e =>
              exact Or.inl
                (by simp [orchestratorHandler, hf, hd, h0, hp, hsp, hgen, hcr, hinc])
            | ok newIdx =>
              cases hb : env.batchOk with
              | false =>
                exact Or.inl
                  (by simp [orchestratorHandler, hf, hd, h0, hp, hsp, hgen, hcr, hinc, hb])
              | true =>
                refine Or.inr ⟨sp, newMsg, newIdx, ?_, rfl, ⟨txt, rfl⟩⟩
                simp [orchestratorHandler, hf, hd, h0, hp, hsp, hgen, hcr, hinc, hb]
  rcases key with h | ⟨sp, newMsg, newIdx, hv, hb, t, hgt⟩
  · exact ⟨Or.inl ⟨by rw [h], by rw [h], by rw [h]⟩,
      fun _ => ⟨by rw [h], by rw [h], by rw [h]⟩,
      fun e _ => ⟨by rw [h], by rw [h], by rw [h]⟩⟩
  · refine ⟨Or.inr ⟨newMsg, newIdx, by rw [hv], by rw [hv], hb⟩, ?_, ?_⟩
    · intro hb'
      rw [hb'] at hb
      cases hb
    · intro e he
      rw [hgt] at he
      cases he

/-- Witness for C1 on a concrete successful RESPOND invocation. -/
theorem c1_respond_atomic_witness :
    ((orchestratorHandler
        (some ⟨"chat", 0, [⟨"gemini", "google", ⟨["m"], "p"⟩⟩], 0⟩)
        (some ⟨"chat", 5, "user", "hi", false, none⟩)
        ⟨true, .ok ⟨"RESPOND"⟩, .ok "hello", true, true, 6⟩
        ⟨some ⟨"chat", 0, [⟨"gemini", "google", ⟨["m"], "p"⟩⟩], 0⟩,
          [⟨"chat", 5, "user", "hi", false, none⟩]⟩).2.1
        = ⟨some ⟨"chat", 0, [⟨"gemini", "google", ⟨["m"], "p"⟩⟩], 0⟩,
            [⟨"chat", 5, "user", "hi", false, none⟩]⟩
       ∧ (orchestratorHandler
        (some ⟨"chat", 0, [⟨"gemini", "google", ⟨["m"], "p"⟩⟩], 0⟩)
        (some ⟨"chat", 5, "user", "hi", false, none⟩)
        ⟨true, .ok ⟨"RESPOND"⟩, .ok "hello", true, true, 6⟩
        ⟨some ⟨"chat", 0, [⟨"gemini", "google", ⟨["m"], "p"⟩⟩], 0⟩,
          [⟨"chat", 5, "user", "hi", false, none⟩]⟩).2.2 = []
       ∧ (orchestratorHandler
        (some ⟨"chat", 0, [⟨"gemini", "google", ⟨["m"], "p"⟩⟩], 0⟩)
        (some ⟨"chat", 5, "user", "hi", false, none⟩)
        ⟨true, .ok ⟨"RESPOND"⟩, .ok "hello", true, true, 6⟩
        ⟨some ⟨"chat", 0, [⟨"gemini", "google", ⟨["m"], "p"⟩⟩], 0⟩,
          [⟨"chat", 5, "user", "hi", false, none⟩]⟩).1 = .errored
     ∨ ∃ newMsg newIdx,
         (orchestratorHandler
        (some ⟨"chat", 0, [⟨"gemini", "google", ⟨["m"], "p"⟩⟩], 0⟩)
        (some ⟨"chat", 5, "user", "hi", false, none⟩)
        ⟨true, .ok ⟨"RESPOND"⟩, .ok "hello", true, true, 6⟩
        ⟨some ⟨"chat", 0, [⟨"gemini", "google", ⟨["m"], "p"⟩⟩], 0⟩,
          [⟨"chat", 5, "user", "hi", false, none⟩]⟩).2.1
           = batchWriteResponseAndUpdateStore newMsg 5 newIdx
               ⟨some ⟨"chat", 0, [⟨"gemini", "google", ⟨["m"], "p"⟩⟩], 0⟩,
                 [⟨"chat", 5, "user", "hi", false, none⟩]⟩
         ∧ (orchestratorHandler
        (some ⟨"chat", 0, [⟨"gemini", "google", ⟨["m"], "p"⟩⟩], 0⟩)
        (some ⟨"chat", 5, "user", "hi", false, none⟩)
        ⟨true, .ok ⟨"RESPOND"⟩, .ok "hello", true, true, 6⟩
        ⟨some ⟨"chat", 0, [⟨"gemini", "google", ⟨["m"], "p"⟩⟩], 0⟩,
          [⟨"chat", 5, "user", "hi", false, none⟩]⟩).2.2
           = [.batchWrite newMsg 5 newIdx]
         ∧ (⟨true, .ok ⟨"RESPOND"⟩, .ok "hello", true, true, 6⟩ : OrchestratorEnv).batchOk
           = true) := by
  exact (c1_respond_atomic _ _ _ _ rfl rfl (by norm_num) rfl).1

/-- C4: the decision parser strips a markdown code fence, extracts the
brace-delimited span, parses it as JSON, and succeeds exactly when the
extracted JSON is an object whose (string) `action` is case-insensitively
RESPOND or WAIT, returning the upper-cased action; the spec's three
examples are instantiated, and failure covers no-extractable-object,
malformed JSON and disallowed `action` alike (the `exactly when`). -/
theorem c4_parseOrchestratorResponse_spec :
    parseOrchestratorResponse "```json\n\x7b\"action\":\"respond\"\x7d\n```" = .ok ⟨"RESPOND"⟩
    ∧ parseOrchestratorResponse "not json" = .error (.jsonParseFailed "not json")
    ∧ parseOrchestratorResponse "\x7b\"action\":\"MAYBE\"\x7d" = .error .invalidDecision
    ∧ (∀ text : String,
        (∃ d, parseOrchestratorResponse text = .ok d)
          ↔ ∃ v, jsonParseChars (extractObjectChars (stripCodeFenceChars (jsTrimChars text.data)))
                = some v
              ∧ isValidOrchestratorDecision v = true)
    ∧ (∀ (text : String) (v : Json) (a : String),
        jsonParseChars (extractObjectChars (stripCodeFenceChars (jsTrimChars text.data)))
            = some v →
        jsonActionString v = some a →
        isValidOrchestratorDecision v = true →
        parseOrchestratorResponse text = .ok ⟨jsUpper a⟩) := by
  refine ⟨rfl, rfl, rfl, ?_, ?_⟩
  · intro text
    simp only [parseOrchestratorResponse]
    cases hj : jsonParseChars (extractObjectChars (stripCodeFenceChars (jsTrimChars text.data)))
        with
    | none =>
      simp
    | some v =>
      simp only
      cases hvd : isValidOrchestratorDecision v with
      | false =>
        rw [if_neg Bool.false_ne_true]
        constructor
        · rintro ⟨d, hd⟩
          cases hd
        · rintro ⟨v', hv', hvalid⟩
          cases hv'
          rw [hvd] at hvalid
          cases hvalid
      | true =>
        rw [if_pos rfl]
        cases hact : jsonActionString v with
        | none =>
          unfold isValidOrchestratorDecision at hvd
          rw [hact] at hvd
          cases hvd
        | some a =>
          exact ⟨fun _ => ⟨v, rfl, hvd⟩, fun _ => ⟨⟨jsUpper a⟩, rfl⟩⟩
  · intro text v a hj hact hvd
    simp only [parseOrchestratorResponse]
    rw [hj]
    simp only
    rw [if_pos hvd, hact]

/-- Witness for C4: a bare lower-case `wait` object parses to the
upper-cased WAIT decision, via the characterisation at a concrete input. -/
theorem c4_parseOrchestratorResponse_spec_witness :
    parseOrchestratorResponse "\x7b\"action\": \"wait\"\x7d" = .ok ⟨"WAIT"⟩ := by
  have h := c4_parseOrchestratorResponse_spec.2.2.2.2 "\x7b\"action\": \"wait\"\x7d"
    (Json.obj [("action", Json.str "wait")]) "wait" rfl rfl rfl
  exact h

end InfiniteChat
